import Mathlib

/-!
Verification of the Irmine/Worlds chunked voxel-world storage engine.

This file gives a shallow embedding, in Lean 4, of the parts of the Go
source that the specification's claims are about: the `SubChunk` packed
voxel segment (`chunks/viewer.go`), the `Chunk` column aggregate
(`chunks/chunk.go`), the sector-addressed `Region` container (`io`
package), the `ChunkProvider` request pipeline (`providers/base.go` and
the Anvil provider), and the per-observer `Loader` (`loader.go`).
Byte arrays are modelled as functions `Nat → Nat` whose values are kept
below 256 where that matters, Go `int32`/`int16` values as `Int` with
explicit two's-complement wrapping, Go maps as association lists or
`Finset`s, and the region file as a size plus a contents function plus
the file cursor kept by the `os.File` handle.
-/

set_option maxRecDepth 100000

namespace Worlds

/-- Pointwise update of a byte-array model, as performed by a Go
slice element assignment `arr[i] = v`. -/
def upd (f : Nat → Nat) (i v : Nat) : Nat → Nat :=
  fun j => if j = i then v else f j

theorem upd_same (f : Nat → Nat) (i v : Nat) : upd f i v i = v := by
  simp [upd]

theorem upd_other (f : Nat → Nat) {i j : Nat} (v : Nat) (h : j ≠ i) :
    upd f i v j = f j := by
  simp [upd, h]

/-! ## SubChunk (`chunks/viewer.go`)

A 16×16×16 voxel segment: 4096 id bytes, and three nibble-packed
2048-byte arrays (block data, block light, sky light). -/

structure SubChunk where
  BlockIds : Nat → Nat
  BlockData : Nat → Nat
  BlockLight : Nat → Nat
  SkyLight : Nat → Nat

/-- Source: `NewSubChunk` allocates four zero-filled byte slices. -/
def NewSubChunk : SubChunk :=
  ⟨fun _ => 0, fun _ => 0, fun _ => 0, fun _ => 0⟩

namespace SubChunk

/-- Source: `GetIdIndex(x, y, z) = (x << 8) | (z << 4) | y`. -/
def GetIdIndex (x y z : Nat) : Nat :=
  (x <<< 8) ||| (z <<< 4) ||| y

/-- Source: `GetDataIndex(x, y, z) = (x << 7) + (z << 3) + (y >> 1)`. -/
def GetDataIndex (x y z : Nat) : Nat :=
  (x <<< 7) + (z <<< 3) + (y >>> 1)

def GetBlockId (s : SubChunk) (x y z : Nat) : Nat :=
  s.BlockIds (GetIdIndex x y z)

def SetBlockId (s : SubChunk) (x y z id : Nat) : SubChunk :=
  { s with BlockIds := upd s.BlockIds (GetIdIndex x y z) id }

/-- Source: `GetBlockData` reads the byte at the data index and selects
the low nibble for even `y`, the high nibble for odd `y`. -/
def GetBlockData (s : SubChunk) (x y z : Nat) : Nat :=
  let data := s.BlockData (GetDataIndex x y z)
  if y &&& 1 = 0 then data &&& 0x0f else data >>> 4

/-- Source: `SetBlockData` rewrites only the nibble selected by the
parity of `y`, keeping the other nibble of the byte. -/
def SetBlockData (s : SubChunk) (x y z data : Nat) : SubChunk :=
  let i := GetDataIndex x y z
  let d := s.BlockData i
  if y &&& 1 = 0 then
    { s with BlockData := upd s.BlockData i ((d &&& 0xf0) ||| (data &&& 0x0f)) }
  else
    { s with BlockData := upd s.BlockData i (((data &&& 0x0f) <<< 4) ||| (d &&& 0x0f)) }

/-- Source: `GetBlockLight`, identical nibble selection to `GetBlockData`. -/
def GetBlockLight (s : SubChunk) (x y z : Nat) : Nat :=
  let data := s.BlockLight (GetDataIndex x y z)
  if y &&& 1 = 0 then data &&& 0x0f else data >>> 4

/-- Source: `SetBlockLight`, identical nibble update to `SetBlockData`. -/
def SetBlockLight (s : SubChunk) (x y z light : Nat) : SubChunk :=
  let i := GetDataIndex x y z
  let d := s.BlockLight i
  if y &&& 1 = 0 then
    { s with BlockLight := upd s.BlockLight i ((d &&& 0xf0) ||| (light &&& 0x0f)) }
  else
    { s with BlockLight := upd s.BlockLight i (((light &&& 0x0f) <<< 4) ||| (d &&& 0x0f)) }

/-- Source: `GetSkyLight`, identical nibble selection to `GetBlockData`. -/
def GetSkyLight (s : SubChunk) (x y z : Nat) : Nat :=
  let data := s.SkyLight (GetDataIndex x y z)
  if y &&& 1 = 0 then data &&& 0x0f else data >>> 4

/-- Source: `SetSkyLight`, identical nibble update to `SetBlockData`. -/
def SetSkyLight (s : SubChunk) (x y z light : Nat) : SubChunk :=
  let i := GetDataIndex x y z
  let d := s.SkyLight i
  if y &&& 1 = 0 then
    { s with SkyLight := upd s.SkyLight i ((d &&& 0xf0) ||| (light &&& 0x0f)) }
  else
    { s with SkyLight := upd s.SkyLight i (((light &&& 0x0f) <<< 4) ||| (d &&& 0x0f)) }

end SubChunk

/-! Bit-level facts behind the nibble packing.  Each is settled by a
finite check of at most 256 cases and then assembled into the lemmas
the round-trip theorem needs. -/

theorem byte_high_nibble (d : Fin 256) : d.1 &&& 0xf0 = (d.1 >>> 4) <<< 4 := by
  revert d
  decide

theorem byte_nibble_bounds (d : Fin 256) : d.1 >>> 4 < 16 ∧ d.1 &&& 0x0f < 16 := by
  revert d
  decide

theorem nibble_self (v : Fin 16) : v.1 &&& 0x0f = v.1 := by
  revert v
  decide

theorem nibble_pack_low (a v : Fin 16) :
    (((a.1 <<< 4) ||| (v.1 &&& 0x0f)) &&& 0x0f = v.1) ∧
    (((a.1 <<< 4) ||| (v.1 &&& 0x0f)) >>> 4 = a.1) := by
  revert a v
  decide

theorem nibble_pack_high (v b : Fin 16) :
    ((((v.1 &&& 0x0f) <<< 4) ||| b.1) >>> 4 = v.1) ∧
    ((((v.1 &&& 0x0f) <<< 4) ||| b.1) &&& 0x0f = b.1) := by
  revert v b
  decide

/-- The two nibble facts for an even-`y` write: reading the low nibble
back gives the written value, the high nibble is untouched. -/
theorem nibble_set_even {d v : Nat} (hd : d < 256) (hv : v < 16) :
    (((d &&& 0xf0) ||| (v &&& 0x0f)) &&& 0x0f = v) ∧
    (((d &&& 0xf0) ||| (v &&& 0x0f)) >>> 4 = d >>> 4) := by
  have h1 := byte_high_nibble ⟨d, hd⟩
  have h2 := (byte_nibble_bounds ⟨d, hd⟩).1
  have h3 := nibble_pack_low ⟨d >>> 4, h2⟩ ⟨v, hv⟩
  simp only [] at h1 h3
  rw [h1]
  exact h3

/-- The two nibble facts for an odd-`y` write: reading the high nibble
back gives the written value, the low nibble is untouched. -/
theorem nibble_set_odd {d v : Nat} (hd : d < 256) (hv : v < 16) :
    ((((v &&& 0x0f) <<< 4) ||| (d &&& 0x0f)) >>> 4 = v) ∧
    ((((v &&& 0x0f) <<< 4) ||| (d &&& 0x0f)) &&& 0x0f = d &&& 0x0f) := by
  have h2 := (byte_nibble_bounds ⟨d, hd⟩).2
  exact nibble_pack_high ⟨v, hv⟩ ⟨d &&& 0x0f, h2⟩

theorem parity_facts (y : Fin 16) :
    ((y.1 ^^^ 1) >>> 1 = y.1 >>> 1) ∧
    (y.1 &&& 1 = 0 → (y.1 ^^^ 1) &&& 1 = 1) ∧
    (y.1 &&& 1 ≠ 0 → (y.1 ^^^ 1) &&& 1 = 0) ∧ (y.1 ^^^ 1 < 16) := by
  revert y
  decide

/-- C9.  Nibble round-trip: for local coordinates `x, z, y` in `0..15`
and any nibble value `v` in `0..15`, reading the 4-bit data channel at
`(x, y, z)` immediately after setting it to `v` returns `v`, and the
write leaves the paired nibble — the value stored for the other-parity
`y` (`y ^^^ 1`) sharing the same byte — unchanged; likewise for the
block-light and sky-light channels.  The byte-bound hypotheses record
the `[]byte` typing of the three Go arrays. -/
theorem C9_nibble_roundtrip (s : SubChunk) (x y z v : Nat)
    (_hx : x < 16) (hy : y < 16) (_hz : z < 16) (hv : v < 16)
    (hbd : s.BlockData (SubChunk.GetDataIndex x y z) < 256)
    (hbl : s.BlockLight (SubChunk.GetDataIndex x y z) < 256)
    (hsl : s.SkyLight (SubChunk.GetDataIndex x y z) < 256) :
    ((s.SetBlockData x y z v).GetBlockData x y z = v ∧
      (s.SetBlockData x y z v).GetBlockData x (y ^^^ 1) z =
        s.GetBlockData x (y ^^^ 1) z) ∧
    ((s.SetBlockLight x y z v).GetBlockLight x y z = v ∧
      (s.SetBlockLight x y z v).GetBlockLight x (y ^^^ 1) z =
        s.GetBlockLight x (y ^^^ 1) z) ∧
    ((s.SetSkyLight x y z v).GetSkyLight x y z = v ∧
      (s.SetSkyLight x y z v).GetSkyLight x (y ^^^ 1) z =
        s.GetSkyLight x (y ^^^ 1) z) := by
  have hpf := parity_facts ⟨y, hy⟩
  have hidx : SubChunk.GetDataIndex x (y ^^^ 1) z = SubChunk.GetDataIndex x y z := by
    unfold SubChunk.GetDataIndex
    rw [hpf.1]
  by_cases hpar : y &&& 1 = 0
  · have hpar' : (y ^^^ 1) &&& 1 = 1 := hpf.2.1 hpar
    have hm : y % 2 = 0 := by rwa [Nat.and_one_is_mod] at hpar
    have hm' : (y ^^^ 1) % 2 = 1 := by rwa [Nat.and_one_is_mod] at hpar'
    have e1 := nibble_set_even hbd hv
    have e2 := nibble_set_even hbl hv
    have e3 := nibble_set_even hsl hv
    refine ⟨⟨?_, ?_⟩, ⟨?_, ?_⟩, ⟨?_, ?_⟩⟩ <;>
      simp [SubChunk.GetBlockData, SubChunk.SetBlockData, SubChunk.GetBlockLight,
        SubChunk.SetBlockLight, SubChunk.GetSkyLight, SubChunk.SetSkyLight,
        hidx, hpar, hpar', hm, hm', upd, e1.1, e1.2, e2.1, e2.2, e3.1, e3.2]
  · have hpar' : (y ^^^ 1) &&& 1 = 0 := hpf.2.2.1 hpar
    have hm : ¬y % 2 = 0 := by rwa [Nat.and_one_is_mod] at hpar
    have hm' : (y ^^^ 1) % 2 = 0 := by rwa [Nat.and_one_is_mod] at hpar'
    have e1 := nibble_set_odd hbd hv
    have e2 := nibble_set_odd hbl hv
    have e3 := nibble_set_odd hsl hv
    refine ⟨⟨?_, ?_⟩, ⟨?_, ?_⟩, ⟨?_, ?_⟩⟩ <;>
      simp [SubChunk.GetBlockData, SubChunk.SetBlockData, SubChunk.GetBlockLight,
        SubChunk.SetBlockLight, SubChunk.GetSkyLight, SubChunk.SetSkyLight,
        hidx, hpar, hpar', hm, hm', upd, e1.1, e1.2, e2.1, e2.2, e3.1, e3.2]

/-- Witness for C9: concrete instantiation on a fresh sub chunk at
`x = 3`, `y = 4`, `z = 5`, value `9`. -/
theorem C9_nibble_roundtrip_witness :
    ((NewSubChunk.SetBlockData 3 4 5 9).GetBlockData 3 4 5 = 9 ∧
      (NewSubChunk.SetBlockData 3 4 5 9).GetBlockData 3 (4 ^^^ 1) 5 =
        NewSubChunk.GetBlockData 3 (4 ^^^ 1) 5) ∧
    ((NewSubChunk.SetBlockLight 3 4 5 9).GetBlockLight 3 4 5 = 9 ∧
      (NewSubChunk.SetBlockLight 3 4 5 9).GetBlockLight 3 (4 ^^^ 1) 5 =
        NewSubChunk.GetBlockLight 3 (4 ^^^ 1) 5) ∧
    ((NewSubChunk.SetSkyLight 3 4 5 9).GetSkyLight 3 4 5 = 9 ∧
      (NewSubChunk.SetSkyLight 3 4 5 9).GetSkyLight 3 (4 ^^^ 1) 5 =
        NewSubChunk.GetSkyLight 3 (4 ^^^ 1) 5) :=
  C9_nibble_roundtrip NewSubChunk 3 4 5 9 (by decide) (by decide) (by decide)
    (by decide) (by decide) (by decide) (by decide)

/-! ## SubChunk aggregate queries and encoding (`chunks/viewer.go`) -/

/-- Checks that `g` is zero on the `2 ^ d` indices starting at `lo`.
The balanced recursion keeps evaluation depth logarithmic so concrete
instances reduce inside the kernel; `allZeroDepth_eq_true` states what
it decides. -/
def allZeroDepth (g : Nat → Nat) : Nat → Nat → Bool
  | 0, lo => g lo == 0
  | d + 1, lo => allZeroDepth g d lo && allZeroDepth g d (lo + 2 ^ d)

theorem allZeroDepth_eq_true (g : Nat → Nat) :
    ∀ d lo, allZeroDepth g d lo = true ↔ ∀ i < 2 ^ d, g (lo + i) = 0 := by
  intro d
  induction d with
  | zero =>
    intro lo
    simp only [allZeroDepth, beq_iff_eq, pow_zero]
    constructor
    · intro h i hi
      interval_cases i
      exact h
    · intro h
      simpa using h 0 (by omega)
  | succ d ih =>
    intro lo
    simp only [allZeroDepth, Bool.and_eq_true, ih]
    constructor
    · intro ⟨h1, h2⟩ i hi
      by_cases hc : i < 2 ^ d
      · exact h1 i hc
      · have := h2 (i - 2 ^ d) (by rw [pow_succ] at hi; omega)
        rwa [show lo + 2 ^ d + (i - 2 ^ d) = lo + i by omega] at this
    · intro h
      refine ⟨fun i hi => h i (by rw [pow_succ]; omega), fun i hi => ?_⟩
      have := h (2 ^ d + i) (by rw [pow_succ]; omega)
      rwa [show lo + (2 ^ d + i) = lo + 2 ^ d + i by omega] at this

namespace SubChunk

/-- Source: `IsAllAir` compares the 4096 id bytes against an all-zero
slice; this holds exactly when every one of the 4096 id bytes is zero
(`allZeroDepth_eq_true` with `2 ^ 12 = 4096`). -/
def IsAllAir (s : SubChunk) : Bool :=
  allZeroDepth s.BlockIds 12 0

/-- Source: `GetHighestBlockY` scans `y = 15` down to `0` and returns
the first `y` whose id byte is nonzero, and `0` when the whole column
is air (the loop falls through to `return 0`). -/
def GetHighestBlockY (s : SubChunk) (x z : Nat) : Int :=
  match (List.range 16).reverse.find? (fun y => s.GetBlockId x y z != 0) with
  | some y => (y : Int)
  | none => 0

/-- Source: `ToBinary` emits a zero flag byte, the raw 4096 id bytes and
the raw 2048 nibble-packed data bytes; light is not on the wire. -/
def ToBinary (s : SubChunk) : List Nat :=
  [0] ++ (List.range 4096).map s.BlockIds ++ (List.range 2048).map s.BlockData

end SubChunk

/-! ## Chunk (`chunks/chunk.go`, the copy the claims cite)

Go `int16` values are carried as `Int` with explicit wrapping, the
`map[byte]*SubChunk` as an association list keyed by the sub-chunk
index, and the entity map as a partial function from runtime ids. -/

/-- A 16-bit two's-complement wrap, the effect of a Go `int16` cast. -/
def toInt16 (n : Int) : Int :=
  (n + 2 ^ 15).emod (2 ^ 16) - 2 ^ 15

/-- Bitwise or at the Go `int16` type. -/
def int16or (a b : Int) : Int :=
  toInt16 (Int.ofNat ((a.emod 65536).toNat ||| (b.emod 65536).toNat))

/-- An entity as the chunk sees it: a runtime id and a closed flag
(the `ChunkEntity` capability of `chunks/entity.go`). -/
structure ChunkEntity where
  runtimeId : Nat
  closed : Bool
deriving DecidableEq

/-- Go map assignment `m[k] = v` on an association list. -/
def assocInsert {κ β : Type} [DecidableEq κ] (l : List (κ × β)) (k : κ) (v : β) :
    List (κ × β) :=
  if (l.lookup k).isSome then
    l.map fun p => if p.1 = k then (k, v) else p
  else
    l ++ [(k, v)]

/-- Go map deletion `delete(m, k)` on an association list. -/
def eraseKey {κ β : Type} [DecidableEq κ] (l : List (κ × β)) (k : κ) :
    List (κ × β) :=
  l.filter fun p => p.1 ≠ k

structure Chunk where
  X : Int
  Z : Int
  Biomes : Nat → Nat
  HeightMap : Nat → Int
  entities : Nat → Option ChunkEntity
  subChunks : List (Nat × SubChunk)

namespace Chunk

/-- Source: `New` makes a chunk with 256 zero biome bytes, a 256-entry
zero height map, no entities and no sub chunks. -/
def New (x z : Int) : Chunk :=
  ⟨x, z, fun _ => 0, fun _ => 0, fun _ => none, []⟩

/-- Source: `GetHeightMapIndex(x, z) = (z << 4) | x`. -/
def GetHeightMapIndex (x z : Nat) : Nat :=
  (z <<< 4) ||| x

def SetHeightMapAt (c : Chunk) (x z : Nat) (value : Int) : Chunk :=
  { c with HeightMap := fun i =>
      if i = GetHeightMapIndex x z then value else c.HeightMap i }

def GetHeightMapAt (c : Chunk) (x z : Nat) : Int :=
  c.HeightMap (GetHeightMapIndex x z)

/-- Source: `GetSubChunk` returns the stored sub chunk, or a fresh one
when the index is absent.  (In Go the fresh sub chunk is also stored —
lazy materialization; the extra all-air entry changes no block, height
or light read, and none of the operations modelled here chain a read
past that side effect, so the read path is modelled purely.) -/
def GetSubChunk (c : Chunk) (y : Nat) : SubChunk :=
  match c.subChunks.lookup y with
  | some s => s
  | none => NewSubChunk

/-- Source: `SetBlockId` reads (materializing) the sub chunk at
`byte(y >> 4)` and writes the id at local `(x, y & 15, z)`. -/
def SetBlockId (c : Chunk) (x y z id : Nat) : Chunk :=
  let key := y >>> 4
  let s := c.GetSubChunk key
  { c with subChunks := assocInsert c.subChunks key (s.SetBlockId x (y &&& 15) z id) }

def GetBlockId (c : Chunk) (x y z : Nat) : Nat :=
  (c.GetSubChunk (y >>> 4)).GetBlockId x (y &&& 15) z

/-- Source: `GetHighestSubChunkIndex` scans `y = 15` down to `0` for the
first stored, not-all-air sub chunk and returns `-1` when none exists. -/
def GetHighestSubChunkIndex (c : Chunk) : Int :=
  match (List.range 16).reverse.find? (fun y =>
      match c.subChunks.lookup y with
      | some s => !s.IsAllAir
      | none => false) with
  | some y => (y : Int)
  | none => -1

/-- The descending loop of `Chunk.GetHighestBlockY`: at fuel `n + 1` the
current index is `y = n`; the loop computes
`GetSubChunk(y).GetHighestBlockY(x, z) | (y << 4)` at `int16` and
returns it unless it equals `-1`. -/
def highestBlockYLoop (c : Chunk) (x z : Nat) : Nat → Int
  | 0 => -1
  | n + 1 =>
    let height := int16or ((c.GetSubChunk n).GetHighestBlockY x z) (Int.ofNat (n <<< 4))
    if height ≠ -1 then height else highestBlockYLoop c x z n

/-- Source: `Chunk.GetHighestBlockY` returns `-1` for an all-air chunk,
else runs the descending loop from the highest non-air sub-chunk
index. -/
def GetHighestBlockY (c : Chunk) (x z : Nat) : Int :=
  let index := c.GetHighestSubChunkIndex
  if index = -1 then -1 else highestBlockYLoop c x z (index.toNat + 1)

/-- Source: `RecalculateHeightMap` sets every column's entry to
`GetHighestBlockY(x, z) + 1` (an `int16` computation). -/
def RecalculateHeightMap (c : Chunk) : Chunk :=
  (List.range 16).foldl (fun c1 x =>
    (List.range 16).foldl (fun c2 z =>
      c2.SetHeightMapAt x z (toInt16 (c2.GetHighestBlockY x z + 1))) c1) c

/-- Source: `AddEntity` rejects a closed entity with an error and
otherwise stores it keyed by its runtime id.  The pair carries the
returned error alongside the (possibly updated) chunk. -/
def AddEntity (c : Chunk) (e : ChunkEntity) : Option String × Chunk :=
  if e.closed then
    (some "cannot add closed entity to chunk", c)
  else
    (none, { c with entities := fun id =>
      if id = e.runtimeId then some e else c.entities id })

/-- Source: `GetFilledSubChunks` is `byte(len(chunk.subChunks))` — the
pruning call is commented out in this copy of the code. -/
def GetFilledSubChunks (c : Chunk) : Nat :=
  c.subChunks.length % 256

end Chunk

/-! ## Binary stream (`binutils` stream as used by `Chunk.ToBinary`) -/

/-- Stream `PutByte`: append one byte (a Go `byte(...)` cast truncates
mod 256). -/
def putByte (st : List Nat) (b : Nat) : List Nat :=
  st ++ [b % 256]

/-- Stream `PutBytes`: append raw bytes. -/
def putBytes (st : List Nat) (bs : List Nat) : List Nat :=
  st ++ bs

/-- The two little-endian bytes of an `int16` value. -/
def le16 (v : Int) : List Nat :=
  [(v.emod 65536).toNat % 256, (v.emod 65536).toNat / 256]

/-- Stream `PutLittleShort`: append an `int16` as two little-endian
bytes. -/
def putLittleShort (st : List Nat) (v : Int) : List Nat :=
  st ++ le16 v

namespace Chunk

/-- Source: `Chunk.ToBinary` (the copy the claims cite) — sub-chunk
count byte; for each index below the count the stored segment encoding
or a zero placeholder of the same 4096+2048+1 size; the 256 height-map
entries as little-endian shorts from index 255 down to 0; the 256 biome
bytes; one terminator byte.  This copy writes no varint extension
field. -/
def ToBinary (c : Chunk) : List Nat :=
  putByte
    ((List.range 256).foldl (fun st i => putByte st (c.Biomes i))
      ((List.range 256).reverse.foldl (fun st i => putLittleShort st (c.HeightMap i))
        ((List.range c.GetFilledSubChunks).foldl (fun st i =>
            match c.subChunks.lookup i with
            | none => putBytes st (List.replicate (4096 + 2048 + 1) 0)
            | some s => putBytes st s.ToBinary)
          (putByte [] c.GetFilledSubChunks))))
    0

end Chunk

/-! ## The claim's wire format, written from the specification's words

The specification's encoding (its §4.2/§6 wire format) differs from the
code above in two places: the leading byte is the *compacted* segment
count (empty trailing segments pruned first, as `PruneEmptySubChunks`
would), and the stream ends with a zero-length varint extension field
after the terminator byte.  `specChunkToBinary` follows the
specification's words so the two can be compared. -/

/-- The top-down prune of the specification: walk indices 15 down to 0,
skip missing entries, delete all-air entries, stop at the first
non-air one. -/
def pruneLoop (l : List (Nat × SubChunk)) : Nat → List (Nat × SubChunk)
  | 0 => l
  | n + 1 =>
    match l.lookup n with
    | none => pruneLoop l n
    | some s => if s.IsAllAir then pruneLoop (eraseKey l n) n else l

def pruneEmptySubChunks (l : List (Nat × SubChunk)) : List (Nat × SubChunk) :=
  pruneLoop l 16

/-- Chunk wire format as the specification states it (claim C5):
compacted segment count, per-index segment encodings or placeholders,
height map little-endian from column 255 down to 0, biomes, terminator
byte, zero-length (single zero byte) varint extension field. -/
def specChunkToBinary (c : Chunk) : List Nat :=
  let pruned := pruneEmptySubChunks c.subChunks
  let count := pruned.length % 256
  [count] ++
    ((List.range count).map fun i =>
      match pruned.lookup i with
      | none => List.replicate (4096 + 2048 + 1) 0
      | some s => s.ToBinary).flatten ++
    ((List.range 256).reverse.map fun i => le16 (c.HeightMap i)).flatten ++
    (List.range 256).map (fun i => c.Biomes i % 256) ++
    [0] ++ [0]

/-- The fold of repeated stream appends is one flat append. -/
theorem foldl_append_eq {α β : Type} (f : α → List β) (l : List α) (st : List β) :
    l.foldl (fun s i => s ++ f i) st = st ++ (l.map f).flatten := by
  induction l generalizing st with
  | nil => simp
  | cons a l ih => simp [ih, List.append_assoc]

/-- Flat form of the code's `ToBinary`: the same bytes as the stream
build, written as one concatenation. -/
def chunkToBinaryFlat (c : Chunk) : List Nat :=
  [c.GetFilledSubChunks] ++
    ((List.range c.GetFilledSubChunks).map fun i =>
      match c.subChunks.lookup i with
      | none => List.replicate (4096 + 2048 + 1) 0
      | some s => s.ToBinary).flatten ++
    ((List.range 256).reverse.map fun i => le16 (c.HeightMap i)).flatten ++
    (List.range 256).map (fun i => c.Biomes i % 256) ++
    [0]

/-- A fold whose body appends a per-element block of bytes is one flat
append of all the blocks. -/
theorem foldl_stream {α β : Type} (g : List β → α → List β) (f : α → List β)
    (hg : ∀ st i, g st i = st ++ f i) (l : List α) (st : List β) :
    l.foldl g st = st ++ (l.map f).flatten := by
  induction l generalizing st with
  | nil => simp
  | cons a l ih => simp [hg, ih, List.append_assoc]

/-- Flattening singleton blocks is a plain map. -/
theorem flatten_map_singleton {α β : Type} (f : α → β) (l : List α) :
    (l.map fun a => [f a]).flatten = l.map f := by
  induction l <;> simp [*]

/-- C10.  `Chunk.AddEntity(e)` returns an error exactly when the entity
is closed; in the error case the chunk (in particular its entity set)
is unchanged, otherwise the entity set afterwards is the previous set
with `e` stored under its runtime id. -/
theorem C10_addEntity_closed_check (c : Chunk) (e : ChunkEntity) :
    ((c.AddEntity e).1.isSome ↔ e.closed = true) ∧
    (c.AddEntity e).2 =
      (if e.closed then c
       else { c with entities := fun id =>
         if id = e.runtimeId then some e else c.entities id }) := by
  cases h : e.closed <;> simp [Chunk.AddEntity, h]

/-- C5 (amended).  The code's `Chunk.ToBinary` equals the flat
concatenation: one byte holding the number of materialized sub chunks
(no pruning), per-index segment encodings or zero placeholders below
that count, the 256 height-map entries little-endian from column 255
down to 0, the 256 biome bytes, and a terminator byte — with no
extension field. -/
theorem C5_chunk_wire_encoding (c : Chunk) :
    c.ToBinary = chunkToBinaryFlat c := by
  have hseg : ∀ (st : List Nat) (i : Nat),
      (match c.subChunks.lookup i with
        | none => putBytes st (List.replicate (4096 + 2048 + 1) 0)
        | some s => putBytes st s.ToBinary) =
      st ++ (match c.subChunks.lookup i with
        | none => List.replicate (4096 + 2048 + 1) 0
        | some s => s.ToBinary) := by
    intro st i
    cases c.subChunks.lookup i <;> rfl
  have hhm : ∀ (st : List Nat) (i : Nat),
      putLittleShort st (c.HeightMap i) = st ++ le16 (c.HeightMap i) :=
    fun _ _ => rfl
  have hbio : ∀ (st : List Nat) (i : Nat),
      putByte st (c.Biomes i) = st ++ [c.Biomes i % 256] :=
    fun _ _ => rfl
  unfold Chunk.ToBinary chunkToBinaryFlat
  rw [foldl_stream _ _ hseg, foldl_stream _ _ hhm, foldl_stream _ _ hbio,
    flatten_map_singleton]
  simp only [putByte, List.nil_append, List.append_assoc,
    Chunk.GetFilledSubChunks, Nat.zero_mod]
  rw [Nat.mod_mod_of_dvd _ (dvd_refl 256)]

/-- A chunk that materialized one sub chunk at index 0 and is now all
air again: a block id is set and then cleared at the origin. -/
def airSubChunkChunk : Chunk :=
  ((Chunk.New 0 0).SetBlockId 0 0 0 1).SetBlockId 0 0 0 0

/-- C5 (counterexample).  On a chunk holding a single materialized
all-air sub chunk, the code's `ToBinary` output differs from the
specification's wire format: the code's leading byte is the raw map
size 1 (no pruning) and the code emits no varint extension field, while
the specification's encoding starts with compacted count 0 and ends
with a zero-length extension field. -/
theorem C5_chunk_wire_encoding_counterexample :
    airSubChunkChunk.ToBinary ≠ specChunkToBinary airSubChunkChunk := by
  decide

/-- A chunk with block id 1 at `(x, y, z) = (0, 0, 0)` and block id 1 at
`(1, 16, 0)`: in column `(0, 0)` the highest nonzero id sits at `y = 0`,
while sub chunk 1 (containing the other column's block) is the highest
non-air sub chunk. -/
def heightMapBugChunk : Chunk :=
  ((Chunk.New 0 0).SetBlockId 0 0 0 1).SetBlockId 1 16 0 1

/-- C4.  Evaluation of `RecalculateHeightMap` at the failing input: the
column `(0, 0)` has its highest nonzero block id at `y = 0` (the block
ids at every other height of that column are zero), so the claim's
height-map entry would be `0 + 1 = 1`; the code computes `17`, because
`SubChunk.GetHighestBlockY` returns `0` — not `-1` — for an all-air
column, so the chunk-level descending scan always answers from the
topmost non-air sub chunk (`int16or 0 (1 <<< 4) = 16`). -/
theorem C4_heightmap_recompute_failing :
    heightMapBugChunk.RecalculateHeightMap.GetHeightMapAt 0 0 = 17 ∧
    heightMapBugChunk.GetBlockId 0 0 0 = 1 ∧
    ((List.range 256).all fun y =>
      y == 0 || heightMapBugChunk.GetBlockId 0 y 0 == 0) = true := by
  refine ⟨by decide, by decide, by decide⟩

/-! ## Region container (`io` package, `part_006`)

The region file is modelled as a byte-content function with a size and
the handle's seek cursor (`os.File`).  Byte buffers that can span
sectors are modelled as length-plus-contents pairs so that lengths are
arithmetic rather than list walks. -/

/-- A byte buffer: a length and the byte at each index below it. -/
structure Bytes where
  len : Nat
  byteAt : Nat → Nat

def Bytes.nil : Bytes := ⟨0, fun _ => 0⟩

/-- `bytes.Buffer.Write`: concatenation of two buffers. -/
def Bytes.app (a b : Bytes) : Bytes :=
  ⟨a.len + b.len, fun i => if i < a.len then a.byteAt i else b.byteAt (i - a.len)⟩

/-- A zero-filled buffer, `make([]byte, n)`. -/
def Bytes.zeros (n : Nat) : Bytes := ⟨n, fun _ => 0⟩

def Bytes.ofList (l : List Nat) : Bytes := ⟨l.length, fun i => l.getD i 0⟩

/-- An `os.File`: contents, length and the handle's cursor. -/
structure GoFile where
  size : Nat
  data : Nat → Nat
  cursor : Nat

/-- `File.ReadAt` into a fresh `n`-byte buffer: bytes beyond the end of
the file are left zero (the buffer is zero-initialized and a short read
leaves the tail untouched). -/
def GoFile.readAt (f : GoFile) (off n : Nat) : Bytes :=
  ⟨n, fun i => if off + i < f.size then f.data (off + i) else 0⟩

/-- `File.WriteAt`: overwrite at `off`, extending the file when the
write reaches past its end (any gap reads as zero).  The cursor is not
moved. -/
def GoFile.writeAt (f : GoFile) (off : Nat) (bs : Bytes) : GoFile :=
  ⟨max f.size (off + bs.len),
    fun i =>
      if off ≤ i ∧ i < off + bs.len then bs.byteAt (i - off)
      else if i < f.size then f.data i else 0,
    f.cursor⟩

/-- `File.Truncate(n)`: the contents are cut (or zero-extended) to `n`
bytes; the cursor is not moved. -/
def GoFile.truncate (f : GoFile) (n : Nat) : GoFile :=
  ⟨n, fun i => if i < f.size then f.data i else 0, f.cursor⟩

/-- `io.Copy(file, buffer)`: write the buffer at the cursor and advance
the cursor past it. -/
def GoFile.copyAtCursor (f : GoFile) (bs : Bytes) : GoFile :=
  let g := f.writeAt f.cursor bs
  ⟨g.size, g.data, f.cursor + bs.len⟩

/-- Big-endian `int32` read of the first four bytes of a buffer
(`binary.Read(..., BigEndian, &int32)`). -/
def be32dec (b : Bytes) : Int :=
  let v : Nat := b.byteAt 0 * 2 ^ 24 + b.byteAt 1 * 2 ^ 16 + b.byteAt 2 * 2 ^ 8 + b.byteAt 3
  if v < 2 ^ 31 then (v : Int) else (v : Int) - 2 ^ 32

/-- Big-endian `int32` write (`binary.Write(..., BigEndian, v)`). -/
def be32enc (v : Int) : List Nat :=
  let n := (v.emod (2 ^ 32)).toNat
  [n / 2 ^ 24 % 256, n / 2 ^ 16 % 256, n / 2 ^ 8 % 256, n % 256]

/-- `int32(math.Ceil(float64(a) / b))` for positive `b`: the ceiling of
the exact quotient. -/
def ceilDiv (a b : Int) : Int := -((-a).fdiv b)

/-- Source: a location record — byte offset and sector count. -/
structure Location where
  Offset : Int
  SectorLength : Int

/-- Source: a region — the 1024 location records, the 1024 timestamps,
and the open file. -/
structure Region where
  locations : Nat → Location
  timestamps : Nat → Int
  file : GoFile

/-- Source: `GetChunkLocationIndex(x, z) = (x & 31) + (z & 31) * 32`
(`int32` masking keeps the low five bits, always non-negative). -/
def GetChunkLocationIndex (x z : Int) : Nat :=
  (x.emod 32 + z.emod 32 * 32).toNat

namespace Region

/-- Source: `GetChunkData` — offset zero means "not generated"
(empty result, compression 0); otherwise read the 5-byte prefix
(big-endian length then compression tag) at the offset, then `length`
payload bytes at offset + 5. -/
def GetChunkData (r : Region) (x z : Int) : Nat × Bytes :=
  let loc := r.locations (GetChunkLocationIndex x z)
  if loc.Offset = 0 then (0, Bytes.nil)
  else
    let buff := r.file.readAt loc.Offset.toNat 5
    let length := be32dec buff
    (buff.byteAt 4, r.file.readAt (loc.Offset + 5).toNat length.toNat)

/-- Source: `WriteChunkData` — read the old length at the location's
offset, compute old padded length and new sector count, relocate to
end-of-file if `newLengthPadded > oldLengthPadded` (note the code sets
`newLengthPadded` to the *sector count*, not a byte length), update the
location and timestamp (`now`), and write length prefix, compression
tag, payload and padding at the chosen offset. -/
def WriteChunkData (r : Region) (x z : Int) (data : List Nat)
    (compressionType : Nat) (now : Int) : Region :=
  let idx := GetChunkLocationIndex x z
  let loc := r.locations idx
  let buff := r.file.readAt loc.Offset.toNat 4
  let oldLength := be32dec buff + 4
  let oldLengthPadded := ceilDiv oldLength 4096 * 4096
  let newLength : Int := (data.length : Int) + 5
  let sectorLength := ceilDiv newLength 4096
  let newLengthPadded := sectorLength
  let padding : List Nat := List.replicate (newLengthPadded - newLength).toNat 0
  let offset : Int := if newLengthPadded > oldLengthPadded then (r.file.size : Int) else loc.Offset
  let out := Bytes.ofList (be32enc newLength ++ [compressionType % 256] ++ data ++ padding)
  { locations := fun i => if i = idx then ⟨offset, sectorLength⟩ else r.locations i,
    timestamps := fun i => if i = idx then now else r.timestamps i,
    file := r.file.writeAt offset.toNat out }

/-- One slot of the `CleanGarbage` walk, carrying the (possibly
updated) location table, the accumulating rebuilt stream, and
`lastOffset`.  The slot's `bytes.Buffer` starts from the four length
bytes, but `binary.Read` consumes them, and a Go buffer's `Len()` and
`Bytes()` cover only the unread portion: after `buffer.Write(data)` the
buffer holds the `l` payload bytes alone, the padding is computed from
`buffer.Len() = l`, and the block appended to the rebuilt stream is
payload plus padding — `paddingLength` bytes, without the length
prefix. -/
def cleanStep (f : GoFile) (st : (Nat → Location) × Bytes × Int) (i : Nat) :
    (Nat → Location) × Bytes × Int :=
  let locs := st.1
  let loc := locs i
  if loc.Offset = 0 then st
  else
    let b := f.readAt loc.Offset.toNat 4
    let l := be32dec b
    if l ≤ 0 then
      (fun j => if j = i then ⟨0, loc.SectorLength⟩ else locs j, st.2.1, st.2.2)
    else
      let dataBytes := f.readAt (loc.Offset + 4).toNat l.toNat
      let paddingLength := ceilDiv (dataBytes.len : Int) 4096 * 4096
      let buffer := dataBytes.app (Bytes.zeros (paddingLength - l).toNat)
      (locs, st.2.1.app buffer, st.2.2 + (buffer.len : Int))

/-- Source: `CleanGarbage` — walk the 1024 slots (skipping offset-zero
slots, zeroing slots whose stored length is non-positive), rebuild the
payload stream, copy it into the file at the handle's cursor, and
truncate to `lastOffset`.  The location offsets are *not* rewritten to
the repacked positions. -/
def CleanGarbage (r : Region) : Region :=
  let st := (List.range 1024).foldl (cleanStep r.file) (r.locations, Bytes.nil, (8192 : Int))
  { locations := st.1, timestamps := r.timestamps,
    file := (r.file.copyAtCursor st.2.1).truncate st.2.2.toNat }

end Region

/-- A freshly created, still empty region file: all location records
zero, no contents. -/
def freshRegion : Region :=
  ⟨fun _ => ⟨0, 0⟩, fun _ => 0, ⟨0, fun _ => 0, 0⟩⟩

/-- A region whose slot `(0, 0)` is allocated at byte offset 8192 (the
first payload sector) with one sector, over a 16384-byte zero file; the
cursor sits at 8192 as it does after `LoadHeader`. -/
def presetRegion : Region :=
  ⟨fun i => if i = 0 then ⟨8192, 1⟩ else ⟨0, 0⟩, fun _ => 0,
    ⟨16384, fun _ => 0, 8192⟩⟩

/-- C1.  Evaluation of the write-then-read round trip at the failing
inputs.  On a fresh region, writing payload `[7]` with tag 2 at `(0,0)`
never sets the location's offset (the growth test compares the sector
count 1 against the padded byte length 4096 and fails, leaving offset
0, and the record is written over the header at file offset 0), so the
read reports "not generated": compression 0 and no data.  On a region
whose slot is already allocated at offset 8192, the read returns tag 2
but `len(P) + 5 = 6` bytes — the stored length field includes the
5-byte prefix and the read fetches that many payload bytes — so the
data is `P` followed by five stray bytes, not `P`. -/
theorem C1_region_roundtrip_failing :
    (((freshRegion.WriteChunkData 0 0 [7] 2 0).GetChunkData 0 0).1 = 0 ∧
      ((freshRegion.WriteChunkData 0 0 [7] 2 0).GetChunkData 0 0).2.len = 0) ∧
    (((presetRegion.WriteChunkData 0 0 [7] 2 0).GetChunkData 0 0).1 = 2 ∧
      ((presetRegion.WriteChunkData 0 0 [7] 2 0).GetChunkData 0 0).2.len = 6 ∧
      ((presetRegion.WriteChunkData 0 0 [7] 2 0).GetChunkData 0 0).2.byteAt 0 = 7) := by
  refine ⟨⟨by decide, by decide⟩, by decide, by decide, by decide⟩

/-- A region whose only record points at the second payload sector
(byte offset 12288, length field 10), over a 16384-byte file with the
cursor at 8192 as after `LoadHeader`. -/
def staleRegion : Region :=
  ⟨fun i => if i = 0 then ⟨12288, 1⟩ else ⟨0, 0⟩, fun _ => 0,
    ⟨16384, fun i => if i = 12291 then 10 else 0, 8192⟩⟩

/-- A `CleanGarbage` slot with a different index leaves a location
untouched. -/
theorem cleanStep_locs_other (f : GoFile) (st : (Nat → Location) × Bytes × Int)
    (i j : Nat) (h : j ≠ i) : (Region.cleanStep f st i).1 j = st.1 j := by
  simp only [Region.cleanStep]
  split
  · rfl
  · split
    · simp [h]
    · rfl

/-- The `CleanGarbage` walk is the identity across slots whose offset
is zero. -/
theorem foldl_cleanStep_skip (f : GoFile) (st : (Nat → Location) × Bytes × Int)
    (l : List Nat) (h : ∀ i ∈ l, (st.1 i).Offset = 0) :
    l.foldl (Region.cleanStep f) st = st := by
  induction l with
  | nil => rfl
  | cons a t ih =>
    have ha : Region.cleanStep f st a = st := by
      unfold Region.cleanStep
      rw [if_pos (h a (by simp))]
    rw [List.foldl_cons, ha]
    exact ih fun i hi => h i (List.mem_cons_of_mem a hi)

/-- When every slot except slot 0 is unallocated, `CleanGarbage`
reduces to processing slot 0 alone. -/
theorem cleanGarbage_hot_zero (r : Region)
    (hrest : ∀ j : Nat, (r.locations (j + 1)).Offset = 0) :
    r.CleanGarbage =
      { locations := (Region.cleanStep r.file (r.locations, Bytes.nil, (8192 : Int)) 0).1,
        timestamps := r.timestamps,
        file := (r.file.copyAtCursor
            (Region.cleanStep r.file (r.locations, Bytes.nil, (8192 : Int)) 0).2.1).truncate
          (Region.cleanStep r.file (r.locations, Bytes.nil, (8192 : Int)) 0).2.2.toNat } := by
  unfold Region.CleanGarbage
  have hfold : (List.range 1024).foldl (Region.cleanStep r.file)
      (r.locations, Bytes.nil, (8192 : Int)) =
      Region.cleanStep r.file (r.locations, Bytes.nil, (8192 : Int)) 0 := by
    rw [show (1024 : Nat) = 1023 + 1 from rfl, List.range_succ_eq_map, List.foldl_cons]
    apply foldl_cleanStep_skip
    intro i hi
    simp only [List.mem_map] at hi
    obtain ⟨j, _, rfl⟩ := hi
    rw [cleanStep_locs_other _ _ _ _ (Nat.succ_ne_zero j)]
    exact hrest j
  rw [hfold]

/-- C8.  Evaluation of double compaction at the failing input: the
first `CleanGarbage` repacks the slot's payload (without its consumed
length prefix) to offset 8192, padded to one 4096-byte block, and
truncates the file to 12288 bytes — but leaves the location's offset
at 12288, now the end of the file; the second run reads the length
field at that stale offset — beyond the truncated end, so zero —
treats the slot as corrupt, zeroes it and truncates to the bare
8192-byte header.  The two runs' contents differ (already in length),
refuting byte-identical idempotence. -/
theorem C8_compaction_idempotence_failing :
    staleRegion.CleanGarbage.file.size = 12288 ∧
    staleRegion.CleanGarbage.CleanGarbage.file.size = 8192 := by
  have hrest : ∀ j : Nat, (staleRegion.locations (j + 1)).Offset = 0 := by
    intro j
    simp [staleRegion]
  rw [cleanGarbage_hot_zero staleRegion hrest]
  rw [cleanGarbage_hot_zero _ (by
    intro j
    show ((Region.cleanStep staleRegion.file
      (staleRegion.locations, Bytes.nil, (8192 : Int)) 0).1 (j + 1)).Offset = 0
    rw [cleanStep_locs_other _ _ _ _ (Nat.succ_ne_zero j)]
    exact hrest j)]
  refine ⟨by decide, by decide⟩

/-! ## Chunk coordinate packing (`providers/base.go`, `level.go`)

`GetChunkIndex` packs two `int32` coordinates into one `int64`-valued
key; `GetChunkXZ` (the provider method the loader calls; the same
algorithm appears as the package-level function in `level.go`) unpacks
it. -/

/-- Two's-complement wrap at 64 bits, the effect of Go `int64`
arithmetic. -/
def toInt64 (n : Int) : Int :=
  (n + 2 ^ 63).emod (2 ^ 64) - 2 ^ 63

/-- Two's-complement wrap at 32 bits, the effect of a Go `int32`
cast. -/
def toInt32 (n : Int) : Int :=
  (n + 2 ^ 31).emod (2 ^ 32) - 2 ^ 31

/-- Source: `GetChunkIndex(x, z) = ((int64(x) & 0xffffffff) << 32) |
(int64(z) & 0xffffffff)`: the masks are `emod 2^32`, the low 32 bits of
the shifted half are zero so the `or` is an addition, and the result is
read back at `int64`. -/
def GetChunkIndex (x z : Int) : Int :=
  toInt64 (x.emod (2 ^ 32) * 2 ^ 32 + z.emod (2 ^ 32))

/-- Source: `GetChunkXZ(index)` — `x = int32(index >> 32)` (arithmetic
shift, i.e. floor division) and `z = int32(index & 0xffffffff << 32 >>
32)` (sign-extension of the low 32 bits). -/
def GetChunkXZ (index : Int) : Int × Int :=
  (toInt32 (index.fdiv (2 ^ 32)), toInt32 (index.emod (2 ^ 32)))

/-! ## ChunkProvider request queue (`providers/base.go`, the copy the
claims cite)

`LoadChunk` completes synchronously from the cache; otherwise the
request goes to the `requests` channel, a buffered Go channel of
capacity 4096: when the buffer has room the send completes at once,
when it is full the send blocks the caller until a receiver frees a
slot.  The three-valued outcome records which of these happened; no
error path exists in the code. -/

/-- A queued chunk request: coordinates plus an identifier standing for
the callback closure. -/
structure ChunkRequest where
  x : Int
  z : Int
  cb : Nat
deriving DecidableEq

/-- The capacity of the provider's request channel
(`make(chan ChunkRequest, 4096)`). -/
def requestsCap : Nat := 4096

/-- The cache plus the channel buffer of a `ChunkProvider`; resident
chunks are identified by a `Nat` instance id. -/
structure ChunkProvider where
  chunks : List (Int × Nat)
  requests : List ChunkRequest

inductive LoadOutcome where
  /-- The callback ran synchronously with the cached chunk. -/
  | completed : Nat → LoadOutcome
  /-- The request was placed in the channel buffer. -/
  | enqueued : LoadOutcome
  /-- The channel buffer was full: the send blocks the caller. -/
  | blocked : LoadOutcome
deriving DecidableEq

namespace ChunkProvider

/-- Source: `LoadChunk` — cache hit runs the callback on the caller's
stack; otherwise `provider.requests <- ChunkRequest{...}` on the
buffered channel: append when below capacity, block when full. -/
def LoadChunk (p : ChunkProvider) (x z : Int) (cb : Nat) :
    LoadOutcome × ChunkProvider :=
  match p.chunks.lookup (GetChunkIndex x z) with
  | some c => (.completed c, p)
  | none =>
    if p.requests.length < requestsCap then
      (.enqueued, { p with requests := p.requests ++ [⟨x, z, cb⟩] })
    else
      (.blocked, p)

end ChunkProvider

/-- A provider with an empty cache and a full request channel. -/
def fullProvider : ChunkProvider :=
  ⟨[], List.replicate requestsCap ⟨1, 1, 0⟩⟩

/-- C3 (counterexample).  With the 4096-slot request channel full and
`(5, 5)` not resident, `LoadChunk` blocks the caller on the channel
send; no resource-exhaustion failure is surfaced (the code has no error
path at all), contradicting the claim that the call returns with a
failure and never blocks. -/
theorem C3_queue_backpressure_counterexample :
    (fullProvider.LoadChunk 5 5 0).1 = LoadOutcome.blocked := by
  unfold ChunkProvider.LoadChunk fullProvider
  simp only [List.lookup, List.length_replicate]
  norm_num

/-- C3 (amended).  For a non-resident coordinate: while the 4096-slot
channel buffer has room the request is appended to it (never dropped),
and when the buffer is full the call blocks, leaving the provider
unchanged; no failure value is surfaced in either case. -/
theorem C3_queue_backpressure (p : ChunkProvider) (x z : Int) (cb : Nat)
    (habs : p.chunks.lookup (GetChunkIndex x z) = none) :
    (p.requests.length < requestsCap →
      (p.LoadChunk x z cb).1 = LoadOutcome.enqueued ∧
      (p.LoadChunk x z cb).2.requests = p.requests ++ [⟨x, z, cb⟩]) ∧
    (¬ p.requests.length < requestsCap →
      (p.LoadChunk x z cb).1 = LoadOutcome.blocked ∧
      (p.LoadChunk x z cb).2 = p) := by
  unfold ChunkProvider.LoadChunk
  rw [habs]
  constructor
  · intro hroom
    rw [if_pos hroom]
    exact ⟨rfl, rfl⟩
  · intro hfull
    rw [if_neg hfull]
    exact ⟨rfl, rfl⟩

/-- Witness for C3 (amended): an empty provider has room, so the
request for `(2, 3)` is enqueued. -/
theorem C3_queue_backpressure_witness :
    ((⟨[], []⟩ : ChunkProvider).requests.length < requestsCap →
      ((⟨[], []⟩ : ChunkProvider).LoadChunk 2 3 7).1 = LoadOutcome.enqueued ∧
      ((⟨[], []⟩ : ChunkProvider).LoadChunk 2 3 7).2.requests =
        ([] : List ChunkRequest) ++ [⟨2, 3, 7⟩]) ∧
    (¬ ((⟨[], []⟩ : ChunkProvider) : ChunkProvider).requests.length < requestsCap →
      ((⟨[], []⟩ : ChunkProvider).LoadChunk 2 3 7).1 = LoadOutcome.blocked ∧
      ((⟨[], []⟩ : ChunkProvider).LoadChunk 2 3 7).2 = ⟨[], []⟩) :=
  C3_queue_backpressure ⟨[], []⟩ 2 3 7 rfl

/-! ## Anvil resolution pipeline (`Anvil.Process` / `Anvil.load`)

An interleaving model of the provider's request pipeline.  A state
holds the chunk cache, the channel queue, the set of popped requests
whose read-or-generate goroutine is still running, the completed
callbacks with the chunk instance each observed, a counter of
read-or-generate operations started, and a supply of fresh chunk
instance ids.  Three events drive it: `enqueue` is `LoadChunk` (the
synchronous cache check, then the channel send), `dequeue` is one turn
of `Process` (pop; complete from cache if resident, else spawn the
read-or-generate goroutine), and `finish` is such a goroutine
completing (`Anvil.load`: generate or read, `SetChunk`, then
`completeRequest` from the cache). -/

structure AnvilState where
  cache : List (Int × Nat)
  queue : List ChunkRequest
  inflight : List ChunkRequest
  completed : List (ChunkRequest × Nat)
  work : Nat
  fresh : Nat
deriving DecidableEq

inductive AnvilEvent where
  | enqueue : ChunkRequest → AnvilEvent
  | dequeue : AnvilEvent
  | finish : ChunkRequest → AnvilEvent

def anvilStep (s : AnvilState) : AnvilEvent → AnvilState
  | .enqueue r =>
    match s.cache.lookup (GetChunkIndex r.x r.z) with
    | some c => { s with completed := s.completed ++ [(r, c)] }
    | none => { s with queue := s.queue ++ [r] }
  | .dequeue =>
    match s.queue with
    | [] => s
    | r :: rest =>
      match s.cache.lookup (GetChunkIndex r.x r.z) with
      | some c => { s with queue := rest, completed := s.completed ++ [(r, c)] }
      | none =>
        { s with queue := rest, inflight := s.inflight ++ [r], work := s.work + 1 }
  | .finish r =>
    if r ∈ s.inflight then
      { cache := assocInsert s.cache (GetChunkIndex r.x r.z) s.fresh,
        queue := s.queue,
        inflight := s.inflight.erase r,
        completed := s.completed ++ [(r, s.fresh)],
        work := s.work,
        fresh := s.fresh + 1 }
    else s

def anvilRun (s : AnvilState) (evs : List AnvilEvent) : AnvilState :=
  evs.foldl anvilStep s

/-- The empty pipeline; fresh chunk instances are numbered from 100. -/
def anvilStart : AnvilState := ⟨[], [], [], [], 0, 100⟩

/-- The two concurrent requests for the absent coordinate `(0, 0)`,
distinguished by their callbacks. -/
def reqA : ChunkRequest := ⟨0, 0, 1⟩

def reqB : ChunkRequest := ⟨0, 0, 2⟩

/-- C2 (counterexample).  Both `LoadChunk` calls for the absent
coordinate `(0, 0)` enqueue (neither sees it resident), and the
`Process` loop pops both before the first read-or-generate goroutine
finishes: the residency check fails both times, so two read-or-generate
operations are started for the same coordinate — not exactly one. -/
theorem C2_duplicate_suppression_counterexample :
    (anvilRun anvilStart
      [.enqueue reqA, .enqueue reqB, .dequeue, .dequeue]).work = 2 := by
  decide

/-- C2 (amended).  Duplicate suppression is best-effort: a request
dequeued while its coordinate is already resident completes from the
cache with the cached instance and starts no read-or-generate work
(first conjunct, the `IsChunkLoaded` check in `Process`); consequently,
when the first resolution finishes before the second request is
dequeued, the two concurrent requests cost exactly one read-or-generate
and both callbacks observe the same chunk instance (second conjunct).
Only when both are dequeued before the first resolution completes is
the work duplicated. -/
theorem C2_duplicate_suppression (s : AnvilState) (r : ChunkRequest)
    (rest : List ChunkRequest) (c : Nat)
    (hq : s.queue = r :: rest)
    (hc : s.cache.lookup (GetChunkIndex r.x r.z) = some c) :
    ((anvilStep s .dequeue).work = s.work ∧
      (anvilStep s .dequeue).completed = s.completed ++ [(r, c)]) ∧
    ((anvilRun anvilStart
        [.enqueue reqA, .enqueue reqB, .dequeue, .finish reqA, .dequeue]).work = 1 ∧
      (anvilRun anvilStart
        [.enqueue reqA, .enqueue reqB, .dequeue, .finish reqA, .dequeue]).completed =
        [(reqA, 100), (reqB, 100)]) := by
  refine ⟨?_, by decide, by decide⟩
  simp [anvilStep, hq, hc]

/-- Witness for C2 (amended): a one-request queue over a cache holding
instance 42 for `(0, 0)` completes from cache without work. -/
theorem C2_duplicate_suppression_witness :
    (((anvilStep ⟨[(GetChunkIndex 0 0, 42)], [reqA], [], [], 0, 100⟩ .dequeue).work =
        (⟨[(GetChunkIndex 0 0, 42)], [reqA], [], [], 0, 100⟩ : AnvilState).work ∧
      (anvilStep ⟨[(GetChunkIndex 0 0, 42)], [reqA], [], [], 0, 100⟩ .dequeue).completed =
        (⟨[(GetChunkIndex 0 0, 42)], [reqA], [], [], 0, 100⟩ : AnvilState).completed ++
          [(reqA, 42)]) ∧
    ((anvilRun anvilStart
        [.enqueue reqA, .enqueue reqB, .dequeue, .finish reqA, .dequeue]).work = 1 ∧
      (anvilRun anvilStart
        [.enqueue reqA, .enqueue reqB, .dequeue, .finish reqA, .dequeue]).completed =
        [(reqA, 100), (reqB, 100)])) :=
  C2_duplicate_suppression ⟨[(GetChunkIndex 0 0, 42)], [reqA], [], [], 0, 100⟩
    reqA [] 42 rfl (by decide)

/-! ## Chunk loader (`loader.go`, `part_008`)

The three Go `map[int]` structures (resident chunks, load queue,
unload queue) are modelled as `Finset Int` of packed coordinates; map
iteration with an early break becomes a `take` over the set's
enumeration. -/

structure Loader where
  chunkX : Int
  chunkZ : Int
  loadedChunks : Finset Int
  loadChunkQueue : Finset Int
  unloadChunkQueue : Finset Int
deriving DecidableEq

namespace Loader

/-- Source: `LoadChunk` — queue the hash for loading unless the chunk
is already in use, and in any case drop it from the unload queue. -/
def LoadChunk (l : Loader) (x z : Int) : Loader :=
  let h := GetChunkIndex x z
  let l1 :=
    if h ∉ l.loadedChunks then
      { l with loadChunkQueue := insert h l.loadChunkQueue }
    else l
  { l1 with unloadChunkQueue := l1.unloadChunkQueue.erase h }

/-- Source: `UnloadChunk` — queue the hash for unloading if the chunk
is in use, and in any case drop it from the load queue. -/
def UnloadChunk (l : Loader) (x z : Int) : Loader :=
  let h := GetChunkIndex x z
  let l1 :=
    if h ∈ l.loadedChunks then
      { l with unloadChunkQueue := insert h l.unloadChunkQueue }
    else l
  { l1 with loadChunkQueue := l1.loadChunkQueue.erase h }

end Loader

/-- The offsets `-d .. d`, the loop bounds of `SortChunks`. -/
def intRange (d : Int) : List Int :=
  (List.range (2 * d + 1).toNat).map fun i => (i : Int) - d

/-- The double loop of `SortChunks`: offsets `(dx, dz)` in
`[-d, d] × [-d, d]` whose squared distance is within `d ^ 2`
(`RadiusSquared`; `int32(math.Pow(...))` is exact at these
magnitudes), in loop order. -/
def discOffsets (d : Int) : List (Int × Int) :=
  (intRange d).flatMap fun dx =>
    (intRange d).filterMap fun dz =>
      if dx ^ 2 + dz ^ 2 > d ^ 2 then none else some (dx, dz)

namespace Loader

/-- Source: `SortChunks` — queue every resident chunk for unloading,
reset the load queue, then `LoadChunk` every offset of the view-radius
disc around the current center. -/
def SortChunks (l : Loader) (viewDistance : Int) : Loader :=
  let l1 := { l with unloadChunkQueue := l.unloadChunkQueue ∪ l.loadedChunks,
                     loadChunkQueue := (∅ : Finset Int) }
  (discOffsets viewDistance).foldl
    (fun acc p => acc.LoadChunk (l.chunkX + p.1) (l.chunkZ + p.2)) l1

/-- Source: `ProcessLoadQueue` — iterate the load queue with `count`
starting at 1 and breaking when `count >= perTick`, so at most
`perTick - 1` entries are taken; each taken entry is dispatched
(`Provider.LoadChunk` at the unpacked `GetChunkXZ` coordinates) and
deleted from the queue at dispatch.  The dispatched hashes are
returned alongside the new state. -/
def ProcessLoadQueue (l : Loader) (perTick : Nat) : Loader × List Int :=
  let dispatched := (l.loadChunkQueue.sort (· ≤ ·)).take (perTick - 1)
  ({ l with loadChunkQueue := dispatched.foldl Finset.erase l.loadChunkQueue },
    dispatched)

/-- Source: `ProcessUnloadQueue` — same `count` loop over the unload
queue: at most `perTick - 1` entries are processed; each is removed
from the resident set and the load queue (the unload hook runs when
the chunk is still resident in the provider), but the code never
deletes the entry from the unload queue itself. -/
def ProcessUnloadQueue (l : Loader) (perTick : Nat) : Loader × List Int :=
  let processed := (l.unloadChunkQueue.sort (· ≤ ·)).take (perTick - 1)
  ({ l with loadedChunks := processed.foldl Finset.erase l.loadedChunks,
            loadChunkQueue := processed.foldl Finset.erase l.loadChunkQueue },
    processed)

end Loader

/-- Erasing a list of elements from a finite set keeps exactly the
members outside the list. -/
theorem mem_foldl_erase {α : Type} [DecidableEq α] (l : List α) (s : Finset α)
    (h : α) : h ∈ l.foldl Finset.erase s ↔ h ∈ s ∧ h ∉ l := by
  induction l generalizing s with
  | nil => simp
  | cons a t ih =>
    rw [List.foldl_cons, ih]
    simp only [Finset.mem_erase, List.mem_cons]
    tauto

/-- A loader with one queued load entry and one queued unload entry
(for distinct coordinates, each resident in the unload case). -/
def oneEntryLoader : Loader :=
  ⟨0, 0, {GetChunkIndex 9 9}, {GetChunkIndex 5 7}, {GetChunkIndex 9 9}⟩

/-- C6 (counterexample).  With budget `perTick = 1` and one entry in
each queue, a single `ProcessLoadQueue` call dispatches no entry at all
(the loop's `count` starts at 1 and breaks as soon as
`count >= perTick`), leaving the load queue untouched, and
`ProcessUnloadQueue` likewise processes none — the claim's
`min(perTick, size) = 1` does not hold. -/
theorem C6_per_tick_budget_counterexample :
    (oneEntryLoader.ProcessLoadQueue 1).2.length = 0 ∧
    (oneEntryLoader.ProcessLoadQueue 1).1.loadChunkQueue = {GetChunkIndex 5 7} ∧
    (oneEntryLoader.ProcessUnloadQueue 1).2.length = 0 := by
  refine ⟨by decide, by decide, by decide⟩

/-- C6 (amended).  A single `ProcessLoadQueue` call dispatches exactly
`min(perTick - 1, load-queue size)` entries — the budget is off by one
from the claim — each removed from the queue on dispatch (membership
after the call excludes exactly the dispatched hashes; completion is
not involved), with the resident set and unload queue untouched; a
single `ProcessUnloadQueue` call processes exactly
`min(perTick - 1, unload-queue size)` entries, and (as the code never
deletes them) the unload queue itself is unchanged. -/
theorem C6_per_tick_budget (l : Loader) (perTick : Nat) :
    ((l.ProcessLoadQueue perTick).2.length =
      min (perTick - 1) l.loadChunkQueue.card) ∧
    (∀ h : Int, h ∈ (l.ProcessLoadQueue perTick).1.loadChunkQueue ↔
      h ∈ l.loadChunkQueue ∧ h ∉ (l.ProcessLoadQueue perTick).2) ∧
    ((l.ProcessLoadQueue perTick).1.loadedChunks = l.loadedChunks ∧
      (l.ProcessLoadQueue perTick).1.unloadChunkQueue = l.unloadChunkQueue) ∧
    ((l.ProcessUnloadQueue perTick).2.length =
      min (perTick - 1) l.unloadChunkQueue.card) ∧
    (l.ProcessUnloadQueue perTick).1.unloadChunkQueue = l.unloadChunkQueue := by
  refine ⟨?_, fun h => ?_, ⟨rfl, rfl⟩, ?_, rfl⟩
  · simp [Loader.ProcessLoadQueue, Finset.length_sort]
  · exact mem_foldl_erase _ _ h
  · simp [Loader.ProcessUnloadQueue, Finset.length_sort]

/-! Membership characterizations of the loader operations, used to
settle the disc and disjointness properties. -/

theorem loadChunk_loaded (l : Loader) (x z : Int) :
    (l.LoadChunk x z).loadedChunks = l.loadedChunks := by
  simp only [Loader.LoadChunk]
  split <;> rfl

theorem loadChunk_load_mem (l : Loader) (x z : Int) (h : Int) :
    h ∈ (l.LoadChunk x z).loadChunkQueue ↔
      h ∈ l.loadChunkQueue ∨
        (h = GetChunkIndex x z ∧ GetChunkIndex x z ∉ l.loadedChunks) := by
  simp only [Loader.LoadChunk]
  by_cases hc : GetChunkIndex x z ∈ l.loadedChunks <;>
    (simp [hc, Finset.mem_insert]; try tauto)

theorem loadChunk_unload_mem (l : Loader) (x z : Int) (h : Int) :
    h ∈ (l.LoadChunk x z).unloadChunkQueue ↔
      h ∈ l.unloadChunkQueue ∧ h ≠ GetChunkIndex x z := by
  simp only [Loader.LoadChunk]
  by_cases hc : GetChunkIndex x z ∈ l.loadedChunks <;>
    simp [hc, Finset.mem_erase] <;> tauto

theorem unloadChunk_load_mem (l : Loader) (x z : Int) (h : Int) :
    h ∈ (l.UnloadChunk x z).loadChunkQueue ↔
      h ∈ l.loadChunkQueue ∧ h ≠ GetChunkIndex x z := by
  simp only [Loader.UnloadChunk]
  by_cases hc : GetChunkIndex x z ∈ l.loadedChunks <;>
    simp [hc, Finset.mem_erase] <;> tauto

theorem unloadChunk_unload_mem (l : Loader) (x z : Int) (h : Int) :
    h ∈ (l.UnloadChunk x z).unloadChunkQueue ↔
      h ∈ l.unloadChunkQueue ∨
        (h = GetChunkIndex x z ∧ GetChunkIndex x z ∈ l.loadedChunks) := by
  simp only [Loader.UnloadChunk]
  by_cases hc : GetChunkIndex x z ∈ l.loadedChunks <;>
    (simp [hc, Finset.mem_insert]; try tauto)

/-- The `LoadChunk` fold of `SortChunks`, characterized: residency is
untouched, the load queue gains exactly the listed hashes that are not
resident, and the unload queue loses exactly the listed hashes. -/
theorem loadChunk_fold (cx cz : Int) (ps : List (Int × Int)) (lo : Loader) :
    ((ps.foldl (fun acc p => acc.LoadChunk (cx + p.1) (cz + p.2)) lo).loadedChunks
        = lo.loadedChunks) ∧
    (∀ h : Int,
      h ∈ (ps.foldl (fun acc p => acc.LoadChunk (cx + p.1) (cz + p.2)) lo).loadChunkQueue ↔
        h ∈ lo.loadChunkQueue ∨
          (h ∈ ps.map (fun p => GetChunkIndex (cx + p.1) (cz + p.2)) ∧
            h ∉ lo.loadedChunks)) ∧
    (∀ h : Int,
      h ∈ (ps.foldl (fun acc p => acc.LoadChunk (cx + p.1) (cz + p.2)) lo).unloadChunkQueue ↔
        h ∈ lo.unloadChunkQueue ∧
          h ∉ ps.map (fun p => GetChunkIndex (cx + p.1) (cz + p.2))) := by
  induction ps generalizing lo with
  | nil => simp
  | cons p t ih =>
    obtain ⟨ih1, ih2, ih3⟩ := ih (lo.LoadChunk (cx + p.1) (cz + p.2))
    rw [List.foldl_cons]
    refine ⟨ih1.trans (loadChunk_loaded lo _ _), fun h => ?_, fun h => ?_⟩
    · rw [ih2 h, loadChunk_load_mem, loadChunk_loaded]
      simp only [List.map_cons, List.mem_cons]
      constructor
      · rintro ((hl | ⟨rfl, hr⟩) | ⟨ht, hr⟩)
        · exact Or.inl hl
        · exact Or.inr ⟨Or.inl rfl, hr⟩
        · exact Or.inr ⟨Or.inr ht, hr⟩
      · rintro (hl | ⟨hh | ht, hr⟩)
        · exact Or.inl (Or.inl hl)
        · exact Or.inl (Or.inr ⟨hh, hh ▸ hr⟩)
        · exact Or.inr ⟨ht, hr⟩
    · rw [ih3 h, loadChunk_unload_mem]
      simp only [List.map_cons, List.mem_cons]
      tauto

/-- The hashes of the view-radius disc around a loader's center. -/
def discHashes (l : Loader) (d : Int) : Finset Int :=
  ((discOffsets d).map fun p => GetChunkIndex (l.chunkX + p.1) (l.chunkZ + p.2)).toFinset

/-- `SortChunks`, characterized: the load queue becomes exactly the
non-resident disc hashes, and the unload queue becomes the old unload
queue plus the resident set, minus every disc hash. -/
theorem sortChunks_charact (l : Loader) (d : Int) :
    (∀ h : Int, h ∈ (l.SortChunks d).loadChunkQueue ↔
      h ∈ discHashes l d ∧ h ∉ l.loadedChunks) ∧
    (∀ h : Int, h ∈ (l.SortChunks d).unloadChunkQueue ↔
      (h ∈ l.unloadChunkQueue ∨ h ∈ l.loadedChunks) ∧ h ∉ discHashes l d) := by
  obtain ⟨h1, h2, h3⟩ := loadChunk_fold l.chunkX l.chunkZ (discOffsets d)
    { l with unloadChunkQueue := l.unloadChunkQueue ∪ l.loadedChunks,
             loadChunkQueue := (∅ : Finset Int) }
  constructor
  · intro h
    rw [Loader.SortChunks, h2 h]
    simp [discHashes, List.mem_toFinset]
  · intro h
    rw [Loader.SortChunks, h3 h]
    simp [discHashes, List.mem_toFinset, Finset.mem_union]

/-- A loader at center `(0, 0)` with nothing resident and empty
queues. -/
def freshLoader : Loader := ⟨0, 0, ∅, ∅, ∅⟩

/-- The 13 offsets `(dx, dz)` with `dx² + dz² ≤ 4`, as packed hashes —
the claim's expected load set for center `(0, 0)`, radius 2. -/
def disc13Set : Finset Int :=
  ((Finset.Icc (-2 : Int) 2 ×ˢ Finset.Icc (-2 : Int) 2).filter
    fun p => p.1 * p.1 + p.2 * p.2 ≤ 4).image fun p => GetChunkIndex p.1 p.2

/-- C7.  The loader disc property: (i) sorting a fresh loader at center
`(0, 0)` with radius 2 queues exactly the 13 offsets with
`dx² + dz² ≤ 4`; (ii) re-sorting a loader whose unload queue is empty
(as in the scenario, after the first sort's queues have drained) makes
the unload queue exactly the resident hashes outside the new disc and
the load queue exactly the non-resident hashes inside it; (iii) the two
queues are disjoint after any sort; and (iv) `LoadChunk`,
`UnloadChunk`, `ProcessLoadQueue` and `ProcessUnloadQueue` all preserve
that disjointness, so the queues never share a coordinate. -/
theorem C7_loader_disc (l : Loader) (d : Int) (hU : l.unloadChunkQueue = ∅) :
    ((freshLoader.SortChunks 2).loadChunkQueue = disc13Set ∧ disc13Set.card = 13) ∧
    ((l.SortChunks d).unloadChunkQueue = l.loadedChunks \ discHashes l d ∧
      (l.SortChunks d).loadChunkQueue = discHashes l d \ l.loadedChunks) ∧
    (∀ (l' : Loader) (d' : Int),
      Disjoint (l'.SortChunks d').loadChunkQueue (l'.SortChunks d').unloadChunkQueue) ∧
    (∀ (l' : Loader) (x z : Int) (n : Nat),
      Disjoint l'.loadChunkQueue l'.unloadChunkQueue →
      Disjoint (l'.LoadChunk x z).loadChunkQueue (l'.LoadChunk x z).unloadChunkQueue ∧
      Disjoint (l'.UnloadChunk x z).loadChunkQueue (l'.UnloadChunk x z).unloadChunkQueue ∧
      Disjoint (l'.ProcessLoadQueue n).1.loadChunkQueue
        (l'.ProcessLoadQueue n).1.unloadChunkQueue ∧
      Disjoint (l'.ProcessUnloadQueue n).1.loadChunkQueue
        (l'.ProcessUnloadQueue n).1.unloadChunkQueue) := by
  refine ⟨⟨by decide, by decide⟩, ⟨?_, ?_⟩, ?_, ?_⟩
  · ext h
    rw [(sortChunks_charact l d).2 h]
    simp [hU, Finset.mem_sdiff]
  · ext h
    rw [(sortChunks_charact l d).1 h]
    simp [Finset.mem_sdiff]
  · intro l' d'
    rw [Finset.disjoint_left]
    intro a ha hb
    rw [(sortChunks_charact l' d').1 a] at ha
    rw [(sortChunks_charact l' d').2 a] at hb
    exact hb.2 ha.1
  · intro l' x z n hd
    rw [Finset.disjoint_left] at hd
    refine ⟨?_, ?_, ?_, ?_⟩ <;> rw [Finset.disjoint_left]
    · intro a ha hb
      rw [loadChunk_load_mem] at ha
      rw [loadChunk_unload_mem] at hb
      rcases ha with ha | ⟨rfl, _⟩
      · exact hd ha hb.1
      · exact hb.2 rfl
    · intro a ha hb
      rw [unloadChunk_load_mem] at ha
      rw [unloadChunk_unload_mem] at hb
      rcases hb with hb | ⟨rfl, _⟩
      · exact hd ha.1 hb
      · exact ha.2 rfl
    · intro a ha hb
      rw [show (l'.ProcessLoadQueue n).1.loadChunkQueue =
          ((l'.loadChunkQueue.sort (· ≤ ·)).take (n - 1)).foldl Finset.erase
            l'.loadChunkQueue from rfl, mem_foldl_erase] at ha
      exact hd ha.1 hb
    · intro a ha hb
      rw [show (l'.ProcessUnloadQueue n).1.loadChunkQueue =
          ((l'.unloadChunkQueue.sort (· ≤ ·)).take (n - 1)).foldl Finset.erase
            l'.loadChunkQueue from rfl, mem_foldl_erase] at ha
      exact hd ha.1 hb

/-- Witness for C7: instantiated on a loader at center `(3, 0)` with
one resident chunk and empty queues, radius 1. -/
theorem C7_loader_disc_witness :
    ((freshLoader.SortChunks 2).loadChunkQueue = disc13Set ∧ disc13Set.card = 13) ∧
    (((⟨3, 0, {GetChunkIndex 9 9}, ∅, ∅⟩ : Loader).SortChunks 1).unloadChunkQueue =
        ({GetChunkIndex 9 9} : Finset Int) \
          discHashes ⟨3, 0, {GetChunkIndex 9 9}, ∅, ∅⟩ 1 ∧
      ((⟨3, 0, {GetChunkIndex 9 9}, ∅, ∅⟩ : Loader).SortChunks 1).loadChunkQueue =
        discHashes ⟨3, 0, {GetChunkIndex 9 9}, ∅, ∅⟩ 1 \
          ({GetChunkIndex 9 9} : Finset Int)) ∧
    (∀ (l' : Loader) (d' : Int),
      Disjoint (l'.SortChunks d').loadChunkQueue (l'.SortChunks d').unloadChunkQueue) ∧
    (∀ (l' : Loader) (x z : Int) (n : Nat),
      Disjoint l'.loadChunkQueue l'.unloadChunkQueue →
      Disjoint (l'.LoadChunk x z).loadChunkQueue (l'.LoadChunk x z).unloadChunkQueue ∧
      Disjoint (l'.UnloadChunk x z).loadChunkQueue (l'.UnloadChunk x z).unloadChunkQueue ∧
      Disjoint (l'.ProcessLoadQueue n).1.loadChunkQueue
        (l'.ProcessLoadQueue n).1.unloadChunkQueue ∧
      Disjoint (l'.ProcessUnloadQueue n).1.loadChunkQueue
        (l'.ProcessUnloadQueue n).1.unloadChunkQueue) :=
  C7_loader_disc ⟨3, 0, {GetChunkIndex 9 9}, ∅, ∅⟩ 1 rfl

end Worlds
